import Mathlib

/- Shallow embedding of the swaps-service repository core:
   the cached block walker (src/unnamed/part_000) and the swap output
   scanner dispatch (src/scan/swap_scanner.js).

   External collaborators (TTL cache backend, block source, swap detector)
   are modelled as an explicit `Env` of oracles together with a `World`
   that records the evolving cache contents and a log of every I/O call
   the walker performs, so that claims about "no I/O", "cache-first" and
   cache-write shapes are statable. -/

namespace SwapsService

/-- JavaScript truthiness of a string: only the empty string is falsy. -/
def truthyS (s : String) : Bool := decide (s ≠ "")

/-- JavaScript truthiness of an optional string: `undefined` is falsy. -/
def truthyOpt : Option String → Bool
  | none => false
  | some s => truthyS s

/-- Failures: `[code, message]` pairs as constructed by the repository
    (validation failures, the unknown-swap-type failure), or opaque
    upstream failures that are forwarded as-is, identified by a tag. -/
inductive Err where
  | pair : Nat → String → Err
  | ext : Nat → Err
deriving Repr, DecidableEq

/-! ## Cached block walker (src/unnamed/part_000) -/

/-- The fixed cache TTL: `const blockExpirationMs = 1000 * 60 * 60 * 3;`. -/
def blockExpirationMs : Nat := 1000 * 60 * 60 * 3

/-- The page size: `const fetchBlocksCount = 10;`. -/
def fetchBlocksCount : Nat := 10

/-- A block as returned by the block source and as stored in the cache:
    an optional previous block hash and the ordered transaction id list. -/
structure Block where
  previous_block_hash : Option String
  transaction_ids : List String
deriving Repr, DecidableEq

/-- A block as produced by the walker's `getBlock` task. `is_cached` records
    whether the object carries the `is_cached: true` marker that the
    cache-hit branch adds (a freshly fetched block has no such field). -/
structure GotBlock where
  is_cached : Bool
  previous_block_hash : Option String
  transaction_ids : List String
deriving Repr, DecidableEq

/-- One entry of the shared JSON cache: stored under a type and a key. -/
structure CacheEntry where
  ctype : String
  key : String
  value : Block
deriving Repr, DecidableEq

/-- Arguments of one `getJsonFromCache` call made by the walker. -/
structure GetCall where
  cache : String
  key : String
  type : String
deriving Repr, DecidableEq

/-- Arguments of one block-source `getBlock` call made by the walker. -/
structure FetchCall where
  network : String
  id : String
deriving Repr, DecidableEq

/-- Arguments of one `setJsonInCache` call made by the walker. -/
structure SetCall where
  cache : String
  key : String
  ms : Nat
  type : String
  value : Block
deriving Repr, DecidableEq

/-- The external world visible to a walk: the cache contents (most recent
    write first) and a log of every cache read, block-source fetch and
    cache write that has been performed. -/
structure World where
  cache : List CacheEntry
  getLog : List GetCall
  fetchLog : List FetchCall
  setLog : List SetCall
deriving Repr, DecidableEq

/-- A world with an empty cache and no I/O performed yet. -/
def emptyWorld : World := ⟨[], [], [], []⟩

/-- Oracles for the external collaborators: injected cache-read and
    cache-write failures (per key), and the block source's response
    (per network and block id). -/
structure Env where
  getErr : String → Option Err
  setErr : String → Option Err
  src : String → String → Except Err Block

/-- Current cache lookup: the most recent entry under a type and key. -/
def cacheLookup (w : World) (ctype key : String) : Option CacheEntry :=
  w.cache.find? fun e => decide (e.ctype = ctype ∧ e.key = key)

/-- The cache read `getJsonFromCache`: logs the read, then either
    fails (injected backend failure) or returns the cached value, if any. -/
def getJsonFromCache (env : Env) (cname ctype key : String) (w : World) :
    Except Err (Option Block) × World :=
  let w1 : World := { w with getLog := w.getLog ++ [⟨cname, key, ctype⟩] }
  match env.getErr key with
  | some e => (.error e, w1)
  | none =>
      match cacheLookup w ctype key with
      | some entry => (.ok (some entry.value), w1)
      | none => (.ok none, w1)

/-- The block-source fetch `getBlock`: logs the fetch
    and returns the source's response. -/
def fetchBlock (env : Env) (net id : String) (w : World) :
    Except Err Block × World :=
  (env.src net id, { w with fetchLog := w.fetchLog ++ [⟨net, id⟩] })

/-- The cache write `setJsonInCache`: logs the write,
    then either fails (injected backend failure) or prepends the entry. -/
def setJsonInCache (env : Env) (c : SetCall) (w : World) :
    Except Err Unit × World :=
  let w1 : World := { w with setLog := w.setLog ++ [c] }
  match env.setErr c.key with
  | some e => (.error e, w1)
  | none => (.ok (), { w1 with cache := ⟨c.type, c.key, c.value⟩ :: w1.cache })

/-- One iteration of the walker's `asyncAuto`: look the cursor up in the
    cache under type `'block'`; on a hit, rebuild the block with the
    `is_cached: true` marker and skip the cache write; on a miss, fetch the
    block from the block source and write `{previous_block_hash,
    transaction_ids}` back under the cursor key with the fixed TTL.
    Any failure is returned as-is. -/
def walkIter (env : Env) (cname net cur : String) (w : World) :
    Except Err GotBlock × World :=
  match getJsonFromCache env cname "block" cur w with
  | (.error e, w1) => (.error e, w1)
  | (.ok (some b), w1) =>
      (.ok ⟨true, b.previous_block_hash, b.transaction_ids⟩, w1)
  | (.ok none, w1) =>
      match fetchBlock env net cur w1 with
      | (.error e, w2) => (.error e, w2)
      | (.ok b, w2) =>
          match setJsonInCache env
              ⟨cname, cur, blockExpirationMs, "block",
                ⟨b.previous_block_hash, b.transaction_ids⟩⟩ w2 with
          | (.error e, w3) => (.error e, w3)
          | (.ok _, w3) => (.ok ⟨false, b.previous_block_hash, b.transaction_ids⟩, w3)

/-- The walker's `asyncWhilst` loop: while fewer than `fetchBlocksCount`
    blocks are collected and the cursor is truthy, run one iteration,
    append the block and advance the cursor to its `previous_block_hash`.
    The fuel argument only serves Lean's termination; from the entry point
    it is `fetchBlocksCount` and never runs out before the loop's own test
    stops the recursion. -/
def walkLoop (env : Env) (cname net : String) :
    Nat → Option String → List GotBlock → World →
    Except Err (List GotBlock) × World
  | 0, _, blocks, w => (.ok blocks, w)
  | fuel + 1, cursor, blocks, w =>
      if blocks.length < fetchBlocksCount then
        match cursor with
        | none => (.ok blocks, w)
        | some cur =>
            if truthyS cur then
              match walkIter env cname net cur w with
              | (.error e, w1) => (.error e, w1)
              | (.ok gb, w1) =>
                  walkLoop env cname net fuel gb.previous_block_hash
                    (blocks ++ [gb]) w1
            else (.ok blocks, w)
      else (.ok blocks, w)

/-- Successful walker result: `{blocks: [...]}`. -/
structure WalkSuccess where
  blocks : List GotBlock
deriving Repr, DecidableEq

/-- Arguments of the walker module: `{cache, current, network}`, each of
    which may be absent. -/
structure WalkArgs where
  cache : Option String
  current : Option String
  network : Option String
deriving Repr, DecidableEq

/-- The walker module (src/unnamed/part_000): validate the three inputs
    (each missing input is a distinct 400 failure raised before any I/O),
    then run the loop from the starting hash with an empty accumulator. -/
def getPastBlocks (env : Env) (args : WalkArgs) (w : World) :
    Except Err WalkSuccess × World :=
  if !truthyOpt args.cache then
    (.error (.pair 400 "ExpectedCacheToCheckAgainst"), w)
  else if !truthyOpt args.current then
    (.error (.pair 400 "ExpectedCurrentBlockHash"), w)
  else if !truthyOpt args.network then
    (.error (.pair 400 "ExpectedNetworkName"), w)
  else
    match walkLoop env (args.cache.getD "") (args.network.getD "")
        fetchBlocksCount args.current [] w with
    | (.ok bs, w1) => (.ok ⟨bs⟩, w1)
    | (.error e, w1) => (.error e, w1)

/-! ## Swap output scanner dispatch (src/scan/swap_scanner.js) -/

/-- One record of the swap detector's result: a declared type tag and the
    fields the scanner reads off it (each may be absent on the record). -/
structure SwapRecord where
  type : String
  index : Option Nat
  invoice : Option String
  outpoint : Option String
  output : Option String
  preimage : Option String
  script : Option String
  tokens : Option Nat
  vout : Option Nat
deriving Repr, DecidableEq

/-- The swap detector's successful result: `{swaps: [...]}`. -/
structure DetectedSwaps where
  swaps : List SwapRecord
deriving Repr, DecidableEq

/-- Payload of a `claim` notification as the scanner constructs it. -/
structure ClaimNotif where
  id : String
  network : String
  index : Option Nat
  outpoint : Option String
  preimage : Option String
  script : Option String
  type : String
deriving Repr, DecidableEq

/-- Payload of a `funding` notification as the scanner constructs it. -/
structure FundingNotif where
  id : String
  network : String
  index : Option Nat
  invoice : Option String
  output : Option String
  script : Option String
  tokens : Option Nat
  type : String
  vout : Option Nat
deriving Repr, DecidableEq

/-- Payload of a `refund` notification as the scanner constructs it. -/
structure RefundNotif where
  id : String
  network : String
  index : Option Nat
  outpoint : Option String
  script : Option String
  type : String
deriving Repr, DecidableEq

/-- A notification emitted by the scanner. -/
inductive Notif where
  | claim : ClaimNotif → Notif
  | funding : FundingNotif → Notif
  | refund : RefundNotif → Notif
  | error : Err → Notif
deriving Repr, DecidableEq

/-- The scanner's per-record dispatch: the `switch (swap.type)` statement,
    emitting the object literal of the matching case, or the
    `[500, 'UnknownSwapType']` error on the default branch. -/
def dispatchSwap (id network : String) (swap : SwapRecord) : Notif :=
  if swap.type = "claim" then
    .claim ⟨id, network, swap.index, swap.outpoint, swap.preimage,
      swap.script, swap.type⟩
  else if swap.type = "funding" then
    .funding ⟨id, network, swap.index, swap.invoice, swap.output,
      swap.script, swap.tokens, swap.type, swap.vout⟩
  else if swap.type = "refund" then
    .refund ⟨id, network, swap.index, swap.outpoint, swap.script, swap.type⟩
  else
    .error (.pair 500 "UnknownSwapType")

/-- The scanner's handling of one `transaction` event once the detector has
    answered: a detector failure is emitted as a single error notification;
    otherwise every record of the result is dispatched in order. -/
def onTransaction (id network : String) (det : Except Err DetectedSwaps) :
    List Notif :=
  match det with
  | .error e => [.error e]
  | .ok detected => detected.swaps.map (dispatchSwap id network)

/-- Whether a notification is an error notification. -/
def isErrorNotif : Notif → Bool
  | .error _ => true
  | _ => false

/-- Whether a notification is a claim notification. -/
def isClaimNotif : Notif → Bool
  | .claim _ => true
  | _ => false

/-- Whether a notification is a funding notification. -/
def isFundingNotif : Notif → Bool
  | .funding _ => true
  | _ => false

/-! ## Auxiliary definitions used by the verification -/

/-- Lockstep linkage of the per-iteration cache lookups with the collected
    blocks: the first lookup is keyed by the entry cursor, and each further
    lookup is keyed by the previous block's `previous_block_hash`. -/
inductive linked : Option String → List GetCall → List GotBlock → Prop
  | nil (c : Option String) : linked c [] []
  | cons (c : String) (gc : GetCall) (gb : GotBlock)
      (gcs : List GetCall) (gbs : List GotBlock)
      (hkey : gc.key = c)
      (htail : linked gb.previous_block_hash gcs gbs) :
      linked (some c) (gc :: gcs) (gb :: gbs)

/-- A failure-free environment whose block source realizes the chain given
    by a previous-hash function and a transaction-id function. -/
def chainEnv (prev : String → Option String)
    (txs : String → List String) : Env :=
  { getErr := fun _ => none
    setErr := fun _ => none
    src := fun _ id => .ok ⟨prev id, txs id⟩ }

/-- Every cached block agrees with the chain functions. -/
def cacheConsistent (prev : String → Option String)
    (txs : String → List String) (w : World) : Prop :=
  ∀ e ∈ w.cache, e.ctype = "block" → e.value = ⟨prev e.key, txs e.key⟩

/-- How many iterations the loop's test admits along a chain: stop at the
    iteration budget or at the first falsy cursor. -/
def chainCount (prev : String → Option String) : Nat → Option String → Nat
  | 0, _ => 0
  | _ + 1, none => 0
  | n + 1, some c =>
      if truthyS c then chainCount prev n (prev c) + 1 else 0

/-- The cursor the loop holds before iteration `k`, along a chain. -/
def cursorAt (prev : String → Option String) (c : Option String) :
    Nat → Option String
  | 0 => c
  | k + 1 =>
      match cursorAt prev c k with
      | some s => if truthyS s then prev s else none
      | none => none

/-- A well-formed cache write: under type `'block'`, with the fixed TTL,
    keyed by a cursor that was looked up, and carrying exactly the
    `previous_block_hash` and `transaction_ids` of the block the source
    returned for that key (in particular no `is_cached` marker). -/
def goodSet (env : Env) (net : String) (w : World) (sc : SetCall) : Prop :=
  sc.type = "block" ∧ sc.ms = blockExpirationMs ∧
  (∃ gc ∈ w.getLog, gc.key = sc.key) ∧
  ∃ b, env.src net sc.key = .ok b ∧
    sc.value = ⟨b.previous_block_hash, b.transaction_ids⟩

/-! ### Concrete instances used by the witnesses -/

/-- A failure-free environment over the two-block chain a, then b. -/
def envAB : Env :=
  { getErr := fun _ => none
    setErr := fun _ => none
    src := fun _ id => .ok ⟨if id = "a" then some "b" else none, [id]⟩ }

/-- Standard walk arguments starting at hash a. -/
def argsA : WalkArgs := ⟨some "memory", some "a", some "testnet"⟩

/-- A world whose cache already holds a block under hash h0. -/
def wCached : World := ⟨[⟨"block", "h0", ⟨none, ["t1"]⟩⟩], [], [], []⟩

/-- An environment whose block source always fails. -/
def envNoSrc : Env :=
  { getErr := fun _ => none
    setErr := fun _ => none
    src := fun _ _ => .error (.ext 0) }

/-- An infinite chain: every hash has a truthy previous hash. -/
def prevInf (s : String) : Option String := some (s ++ "x")

/-- A three-block chain a, b, c whose third block has no previous hash. -/
def prev3 (s : String) : Option String :=
  if s = "a" then some "b" else if s = "b" then some "c" else none

/-- Transaction ids for the chain environments: each block carries its own
    hash as its only transaction id. -/
def txsSelf (s : String) : List String := [s]

/-- A world whose cache holds one block under the unrelated hash x. -/
def wX : World := ⟨[⟨"block", "x", ⟨none, []⟩⟩], [], [], []⟩

/-- An environment that fails the cache read of hash a. -/
def envGetFail : Env :=
  { getErr := fun k => if k = "a" then some (.ext 1) else none
    setErr := fun _ => none
    src := fun _ id => .ok ⟨none, [id]⟩ }

/-- An environment whose block source fails on hash a. -/
def envSrcFail : Env :=
  { getErr := fun _ => none
    setErr := fun _ => none
    src := fun _ id => if id = "a" then .error (.ext 2) else .ok ⟨none, [id]⟩ }

/-- An environment that fails the cache write of hash a. -/
def envSetFail : Env :=
  { getErr := fun _ => none
    setErr := fun k => if k = "a" then some (.ext 3) else none
    src := fun _ id => .ok ⟨none, [id]⟩ }

/-! ## Lemmas about one walker iteration -/

/-- The `getJsonFromCache` call, described by its oracle outcomes. -/
lemma getJsonFromCache_spec (env : Env) (cname ctype key : String) (w : World) :
    getJsonFromCache env cname ctype key w =
      ((match env.getErr key with
        | some e => .error e
        | none => .ok ((cacheLookup w ctype key).map (·.value))),
       { w with getLog := w.getLog ++ [⟨cname, key, ctype⟩] }) := by
  unfold getJsonFromCache
  cases env.getErr key <;> cases h : cacheLookup w ctype key <;> simp [h]

/-- One walker iteration, described explicitly by the outcomes of the three
    external calls it can make. -/
lemma walkIter_spec (env : Env) (cname net cur : String) (w : World) :
    walkIter env cname net cur w =
      match env.getErr cur with
      | some e =>
          (.error e, { w with getLog := w.getLog ++ [⟨cname, cur, "block"⟩] })
      | none =>
        match cacheLookup w "block" cur with
        | some entry =>
            (.ok ⟨true, entry.value.previous_block_hash,
                entry.value.transaction_ids⟩,
             { w with getLog := w.getLog ++ [⟨cname, cur, "block"⟩] })
        | none =>
          match env.src net cur with
          | .error e =>
              (.error e,
               { w with getLog := w.getLog ++ [⟨cname, cur, "block"⟩],
                        fetchLog := w.fetchLog ++ [⟨net, cur⟩] })
          | .ok b =>
            match env.setErr cur with
            | some e =>
                (.error e,
                 { w with getLog := w.getLog ++ [⟨cname, cur, "block"⟩],
                          fetchLog := w.fetchLog ++ [⟨net, cur⟩],
                          setLog := w.setLog ++
                            [⟨cname, cur, blockExpirationMs, "block",
                              ⟨b.previous_block_hash, b.transaction_ids⟩⟩] })
            | none =>
                (.ok ⟨false, b.previous_block_hash, b.transaction_ids⟩,
                 { w with
                     cache := ⟨"block", cur,
                       ⟨b.previous_block_hash, b.transaction_ids⟩⟩ :: w.cache,
                     getLog := w.getLog ++ [⟨cname, cur, "block"⟩],
                     fetchLog := w.fetchLog ++ [⟨net, cur⟩],
                     setLog := w.setLog ++
                       [⟨cname, cur, blockExpirationMs, "block",
                         ⟨b.previous_block_hash, b.transaction_ids⟩⟩] }) := by
  unfold walkIter
  rw [getJsonFromCache_spec]
  cases env.getErr cur <;> cases h : cacheLookup w "block" cur <;>
    simp only [Option.map_some, Option.map_none] <;>
    unfold fetchBlock setJsonInCache <;>
    cases hs : env.src net cur <;> cases he : env.setErr cur <;> simp [hs, he]

/-- Every iteration appends exactly one cache lookup, keyed by the cursor. -/
lemma walkIter_getLog (env : Env) (cname net cur : String) (w : World) :
    (walkIter env cname net cur w).2.getLog
      = w.getLog ++ [⟨cname, cur, "block"⟩] := by
  rw [walkIter_spec]
  cases env.getErr cur <;> cases cacheLookup w "block" cur <;>
    cases env.src net cur <;> cases env.setErr cur <;> rfl

/-- An iteration never removes cache entries. -/
lemma walkIter_cache_mono (env : Env) (cname net cur : String) (w : World)
    (e : CacheEntry) (he : e ∈ w.cache) :
    e ∈ (walkIter env cname net cur w).2.cache := by
  rw [walkIter_spec]
  cases env.getErr cur <;> cases cacheLookup w "block" cur <;>
    cases env.src net cur <;> cases env.setErr cur <;> simp [he]

/-- An iteration performs at most one block-source fetch, for its cursor. -/
lemma walkIter_fetchLog (env : Env) (cname net cur : String) (w : World) :
    (walkIter env cname net cur w).2.fetchLog = w.fetchLog ∨
      (walkIter env cname net cur w).2.fetchLog = w.fetchLog ++ [⟨net, cur⟩] := by
  rw [walkIter_spec]
  cases env.getErr cur <;> cases cacheLookup w "block" cur <;>
    cases env.src net cur <;> cases env.setErr cur <;> simp

/-- If the cursor has a cache entry, the iteration fetches nothing. -/
lemma walkIter_hit_no_fetch (env : Env) (cname net cur : String) (w : World)
    (hmem : ∃ e ∈ w.cache, e.ctype = "block" ∧ e.key = cur) :
    (walkIter env cname net cur w).2.fetchLog = w.fetchLog := by
  have hfind : (cacheLookup w "block" cur).isSome := by
    rcases hmem with ⟨e, hmem, h1, h2⟩
    unfold cacheLookup
    rw [List.find?_isSome]
    exact ⟨e, hmem, by simp [h1, h2]⟩
  rw [walkIter_spec]
  rcases hl : cacheLookup w "block" cur with _ | entry
  · rw [hl] at hfind; simp at hfind
  · cases env.getErr cur <;> simp

/-! ## The chaining invariant of the loop (cursor advance) -/

lemma linked_length {c : Option String} {l : List GetCall}
    {b : List GotBlock} (h : linked c l b) : l.length = b.length := by
  induction h <;> simp [*]

lemma linked_link {c : Option String} {l : List GetCall} {b : List GotBlock}
    (h : linked c l b) :
    ∀ i, i + 1 < b.length →
      ∃ gb nx gc, b[i]? = some gb ∧ gb.previous_block_hash = some nx ∧
        l[i+1]? = some gc ∧ gc.key = nx := by
  induction h with
  | nil c => intro i hi; simp at hi
  | cons c gc gb gcs gbs hkey htail ih =>
    intro i hi
    cases i with
    | zero =>
      generalize hgb : gb.previous_block_hash = pb at htail
      cases htail with
      | nil => simp at hi
      | cons c2 gc2 gb2 gcs2 gbs2 hkey2 htail2 =>
        exact ⟨gb, c2, gc2, by simp, hgb, by simp, hkey2⟩
    | succ j =>
      obtain ⟨gb', nx, gc', h1, h2, h3, h4⟩ := ih j (by simpa using hi)
      exact ⟨gb', nx, gc', by simpa using h1, h2, by simpa using h3, h4⟩

/-- On a successful run, the loop extends the accumulator with blocks whose
    lookups are `linked` from the entry cursor. -/
lemma walkLoop_ok_linked (env : Env) (cname net : String) :
    ∀ (fuel : Nat) (cursor : Option String) (blocks : List GotBlock)
      (w : World) (res : List GotBlock) (w1 : World),
      walkLoop env cname net fuel cursor blocks w = (.ok res, w1) →
      ∃ new newLog, res = blocks ++ new ∧ w1.getLog = w.getLog ++ newLog ∧
        linked cursor newLog new := by
  intro fuel
  induction fuel with
  | zero =>
    intro cursor blocks w res w1 h
    simp only [walkLoop, Prod.mk.injEq, Except.ok.injEq] at h
    obtain ⟨rfl, rfl⟩ := h
    exact ⟨[], [], by simp, by simp, linked.nil _⟩
  | succ n ih =>
    intro cursor blocks w res w1 h
    simp only [walkLoop] at h
    by_cases hlen : blocks.length < fetchBlocksCount
    · rw [if_pos hlen] at h
      cases cursor with
      | none =>
        simp only [Prod.mk.injEq, Except.ok.injEq] at h
        obtain ⟨rfl, rfl⟩ := h
        exact ⟨[], [], by simp, by simp, linked.nil _⟩
      | some cur =>
        replace h :
            (if truthyS cur = true then
              match walkIter env cname net cur w with
              | (.error e, w1) => (.error e, w1)
              | (.ok gb, w1) =>
                  walkLoop env cname net n gb.previous_block_hash
                    (blocks ++ [gb]) w1
            else (.ok blocks, w)) = (.ok res, w1) := h
        by_cases htr : truthyS cur
        · rw [if_pos htr] at h
          rcases hit : walkIter env cname net cur w with ⟨r, wI⟩
          rw [hit] at h
          cases r with
          | error e => simp at h
          | ok gb =>
            obtain ⟨new, newLog, hres, hlog, hlink⟩ := ih _ _ _ _ _ h
            refine ⟨gb :: new, ⟨cname, cur, "block"⟩ :: newLog, ?_, ?_, ?_⟩
            · rw [hres]; simp
            · have hg := walkIter_getLog env cname net cur w
              rw [hit] at hg
              rw [hlog, hg]; simp
            · exact linked.cons cur _ gb _ _ rfl hlink
        · rw [if_neg htr] at h
          simp only [Prod.mk.injEq, Except.ok.injEq] at h
          obtain ⟨rfl, rfl⟩ := h
          exact ⟨[], [], by simp, by simp, linked.nil _⟩
    · rw [if_neg hlen] at h
      simp only [Prod.mk.injEq, Except.ok.injEq] at h
      obtain ⟨rfl, rfl⟩ := h
      exact ⟨[], [], by simp, by simp, linked.nil _⟩

/-- When all three inputs are truthy the walker module is its loop, with the
    `{blocks}` wrapping of a successful result. -/
lemma getPastBlocks_valid (env : Env) (args : WalkArgs) (w : World)
    (hc : truthyOpt args.cache = true) (hcur : truthyOpt args.current = true)
    (hn : truthyOpt args.network = true) :
    getPastBlocks env args w =
      match walkLoop env (args.cache.getD "") (args.network.getD "")
          fetchBlocksCount args.current [] w with
      | (.ok bs, w1) => (.ok ⟨bs⟩, w1)
      | (.error e, w1) => (.error e, w1) := by
  unfold getPastBlocks
  rw [hc, hcur, hn]
  rfl

/-- C3: chaining invariant of the walker's result. On every successful walk
    the new cache lookups are in lockstep with the returned blocks, and for
    every index `i` with `i+1` in range, `result[i].previous_block_hash` is
    present and equals the key (cursor) used for the lookup, and hence the
    fetch, that produced `result[i+1]`. -/
theorem walker_chain_link (env : Env) (args : WalkArgs) (w : World)
    (res : WalkSuccess) (w1 : World)
    (h : getPastBlocks env args w = (.ok res, w1)) :
    ∃ newLog, w1.getLog = w.getLog ++ newLog ∧
      newLog.length = res.blocks.length ∧
      ∀ i, i + 1 < res.blocks.length →
        ∃ gb nx gc, res.blocks[i]? = some gb ∧
          gb.previous_block_hash = some nx ∧
          newLog[i+1]? = some gc ∧ gc.key = nx := by
  cases hc : truthyOpt args.cache with
  | false => unfold getPastBlocks at h; rw [hc] at h; simp at h
  | true =>
  cases hcur : truthyOpt args.current with
  | false => unfold getPastBlocks at h; rw [hc, hcur] at h; simp at h
  | true =>
  cases hn : truthyOpt args.network with
  | false => unfold getPastBlocks at h; rw [hc, hcur, hn] at h; simp at h
  | true =>
  rw [getPastBlocks_valid env args w hc hcur hn] at h
  rcases hw : walkLoop env (args.cache.getD "") (args.network.getD "")
      fetchBlocksCount args.current [] w with ⟨r, w2⟩
  rw [hw] at h
  cases r with
  | error e => simp at h
  | ok bs =>
    simp only [Prod.mk.injEq, Except.ok.injEq] at h
    obtain ⟨rfl, rfl⟩ := h
    obtain ⟨new, newLog, hres, hlog, hlink⟩ :=
      walkLoop_ok_linked env _ _ _ _ _ _ _ _ hw
    simp only [List.nil_append] at hres
    subst hres
    refine ⟨newLog, hlog, ?_, ?_⟩
    · simpa using linked_length hlink
    · intro i hi
      exact linked_link hlink i (by simpa using hi)

/-- Witness for C3: the chaining invariant at a concrete two-block walk. -/
theorem walker_chain_link_witness :
    ∃ newLog,
      (⟨[⟨"block", "b", ⟨none, ["b"]⟩⟩, ⟨"block", "a", ⟨some "b", ["a"]⟩⟩],
        [⟨"memory", "a", "block"⟩, ⟨"memory", "b", "block"⟩],
        [⟨"testnet", "a"⟩, ⟨"testnet", "b"⟩],
        [⟨"memory", "a", blockExpirationMs, "block", ⟨some "b", ["a"]⟩⟩,
         ⟨"memory", "b", blockExpirationMs, "block", ⟨none, ["b"]⟩⟩]⟩ : World).getLog
        = emptyWorld.getLog ++ newLog ∧
      newLog.length =
        (⟨[⟨false, some "b", ["a"]⟩, ⟨false, none, ["b"]⟩]⟩ : WalkSuccess).blocks.length ∧
      ∀ i, i + 1 <
          (⟨[⟨false, some "b", ["a"]⟩, ⟨false, none, ["b"]⟩]⟩ : WalkSuccess).blocks.length →
        ∃ gb nx gc,
          (⟨[⟨false, some "b", ["a"]⟩, ⟨false, none, ["b"]⟩]⟩ : WalkSuccess).blocks[i]?
            = some gb ∧
          gb.previous_block_hash = some nx ∧
          newLog[i+1]? = some gc ∧ gc.key = nx :=
  walker_chain_link envAB argsA emptyWorld
    ⟨[⟨false, some "b", ["a"]⟩, ⟨false, none, ["b"]⟩]⟩
    ⟨[⟨"block", "b", ⟨none, ["b"]⟩⟩, ⟨"block", "a", ⟨some "b", ["a"]⟩⟩],
      [⟨"memory", "a", "block"⟩, ⟨"memory", "b", "block"⟩],
      [⟨"testnet", "a"⟩, ⟨"testnet", "b"⟩],
      [⟨"memory", "a", blockExpirationMs, "block", ⟨some "b", ["a"]⟩⟩,
       ⟨"memory", "b", blockExpirationMs, "block", ⟨none, ["b"]⟩⟩]⟩
    rfl

/-- C5: walker input validation. A missing cache selector, a missing
    starting hash, and a missing network each yield a distinct 400-coded
    failure with its own descriptive tag, and the world is returned
    untouched: no cache or block-source I/O occurs. -/
theorem walker_input_validation (env : Env) (w : World) (c cur : String)
    (curo neto : Option String)
    (hc : truthyS c = true) (hcur : truthyS cur = true) :
    getPastBlocks env ⟨none, curo, neto⟩ w
      = (.error (.pair 400 "ExpectedCacheToCheckAgainst"), w) ∧
    getPastBlocks env ⟨some c, none, neto⟩ w
      = (.error (.pair 400 "ExpectedCurrentBlockHash"), w) ∧
    getPastBlocks env ⟨some c, some cur, none⟩ w
      = (.error (.pair 400 "ExpectedNetworkName"), w) ∧
    ("ExpectedCacheToCheckAgainst" ≠ "ExpectedCurrentBlockHash" ∧
      "ExpectedCacheToCheckAgainst" ≠ "ExpectedNetworkName" ∧
      "ExpectedCurrentBlockHash" ≠ "ExpectedNetworkName") := by
  refine ⟨rfl, ?_, ?_, by decide⟩
  · unfold getPastBlocks
    simp [truthyOpt, hc]
  · unfold getPastBlocks
    simp [truthyOpt, hc, hcur]

/-- Witness for C5: the three validation failures at concrete inputs. -/
theorem walker_input_validation_witness :
    getPastBlocks envAB ⟨none, none, none⟩ emptyWorld
      = (.error (.pair 400 "ExpectedCacheToCheckAgainst"), emptyWorld) ∧
    getPastBlocks envAB ⟨some "memory", none, none⟩ emptyWorld
      = (.error (.pair 400 "ExpectedCurrentBlockHash"), emptyWorld) ∧
    getPastBlocks envAB ⟨some "memory", some "aa", none⟩ emptyWorld
      = (.error (.pair 400 "ExpectedNetworkName"), emptyWorld) ∧
    ("ExpectedCacheToCheckAgainst" ≠ "ExpectedCurrentBlockHash" ∧
      "ExpectedCacheToCheckAgainst" ≠ "ExpectedNetworkName" ∧
      "ExpectedCurrentBlockHash" ≠ "ExpectedNetworkName") :=
  walker_input_validation envAB emptyWorld "memory" "aa" none none
    (by decide) (by decide)

/-! ## Walking a failure-free chain (pagination and early termination) -/

/-- One iteration against a chain environment over a consistent cache:
    it succeeds, advances to the chain's previous hash, performs exactly
    one cache lookup, at most one fetch, and keeps the cache consistent. -/
lemma walkIter_chain (prev : String → Option String)
    (txs : String → List String) (cname net cur : String) (w : World)
    (hcon : cacheConsistent prev txs w) :
    ∃ gb w1, walkIter (chainEnv prev txs) cname net cur w = (.ok gb, w1) ∧
      gb.previous_block_hash = prev cur ∧
      w1.getLog.length = w.getLog.length + 1 ∧
      w1.fetchLog.length ≤ w.fetchLog.length + 1 ∧
      cacheConsistent prev txs w1 := by
  rcases hl : cacheLookup w "block" cur with _ | entry
  · have heq : walkIter (chainEnv prev txs) cname net cur w =
        (.ok ⟨false, prev cur, txs cur⟩,
         { w with
             cache := ⟨"block", cur, ⟨prev cur, txs cur⟩⟩ :: w.cache,
             getLog := w.getLog ++ [⟨cname, cur, "block"⟩],
             fetchLog := w.fetchLog ++ [⟨net, cur⟩],
             setLog := w.setLog ++
               [⟨cname, cur, blockExpirationMs, "block",
                 ⟨prev cur, txs cur⟩⟩] }) := by
      rw [walkIter_spec, hl]
      simp [chainEnv]
    refine ⟨_, _, heq, rfl, by simp, by simp, ?_⟩
    intro e he hty
    simp only [List.mem_cons] at he
    rcases he with he | he
    · rw [he]
    · exact hcon e he hty
  · have hpred := List.find?_some hl
    have hmem := List.mem_of_find?_eq_some hl
    obtain ⟨hty, hkey⟩ := of_decide_eq_true hpred
    have hval : entry.value = ⟨prev cur, txs cur⟩ := by
      rw [hcon entry hmem hty, hkey]
    have heq : walkIter (chainEnv prev txs) cname net cur w =
        (.ok ⟨true, prev cur, txs cur⟩,
         { w with getLog := w.getLog ++ [⟨cname, cur, "block"⟩] }) := by
      rw [walkIter_spec, hl]
      simp [chainEnv, hval]
    refine ⟨_, _, heq, rfl, by simp, by simp, ?_⟩
    intro e he hty2
    exact hcon e he hty2

/-- The loop count along an exhausted chain. -/
lemma chainCount_none (prev : String → Option String) (n : Nat) :
    chainCount prev n none = 0 := by
  cases n <;> rfl

/-- Advancing the chain start by one truthy step. -/
lemma cursorAt_shift (prev : String → Option String) (c : String)
    (htr : truthyS c = true) (k : Nat) :
    cursorAt prev (some c) (k + 1) = cursorAt prev (prev c) k := by
  induction k with
  | zero => simp [cursorAt, htr]
  | succ j ih =>
      show (match cursorAt prev (some c) (j + 1) with
        | some s => if truthyS s then prev s else none
        | none => none) = cursorAt prev (prev c) (j + 1)
      rw [ih]
      rfl

/-- If the first `n` cursors along the chain are truthy, the loop admits the
    full budget of `n` iterations. -/
lemma chainCount_full (prev : String → Option String) :
    ∀ (n : Nat) (c0 : Option String),
      (∀ j, j < n → truthyOpt (cursorAt prev c0 j) = true) →
      chainCount prev n c0 = n := by
  intro n
  induction n with
  | zero => intro c0 _; rfl
  | succ m ih =>
    intro c0 hall
    have h0 := hall 0 (Nat.succ_pos m)
    rcases c0 with _ | c
    · simp [cursorAt, truthyOpt] at h0
    · have htr : truthyS c = true := by simpa [cursorAt, truthyOpt] using h0
      show (if truthyS c then chainCount prev m (prev c) + 1 else 0) = m + 1
      rw [if_pos htr, ih (prev c) ?_]
      intro j hj
      rw [← cursorAt_shift prev c htr j]
      exact hall (j + 1) (by omega)

/-- If the `k`-th cursor is absent after `k` truthy cursors, the loop admits
    exactly `k` iterations of any budget of at least `k`. -/
lemma chainCount_cut (prev : String → Option String) :
    ∀ (k n : Nat) (c0 : Option String), k ≤ n →
      (∀ j, j < k → truthyOpt (cursorAt prev c0 j) = true) →
      cursorAt prev c0 k = none →
      chainCount prev n c0 = k := by
  intro k
  induction k with
  | zero =>
    intro n c0 _ _ hend
    have : c0 = none := hend
    rw [this, chainCount_none]
  | succ m ih =>
    intro n c0 hn hall hend
    have h0 := hall 0 (Nat.succ_pos m)
    rcases c0 with _ | c
    · simp [cursorAt, truthyOpt] at h0
    · have htr : truthyS c = true := by simpa [cursorAt, truthyOpt] using h0
      rcases n with _ | n2
      · omega
      show (if truthyS c then chainCount prev n2 (prev c) + 1 else 0) = m + 1
      rw [if_pos htr, ih n2 (prev c) (by omega) ?_ ?_]
      · intro j hj
        rw [← cursorAt_shift prev c htr j]
        exact hall (j + 1) (by omega)
      · rw [← cursorAt_shift prev c htr m]
        exact hend

/-- Running the loop against a chain environment over a consistent cache:
    it succeeds, and its block count, lookup count and fetch bound are
    governed by `chainCount`. -/
lemma walkLoop_chain (prev : String → Option String)
    (txs : String → List String) (cname net : String) :
    ∀ (fuel : Nat) (cursor : Option String) (blocks : List GotBlock)
      (w : World),
      cacheConsistent prev txs w →
      fetchBlocksCount - blocks.length ≤ fuel →
      ∃ res w1,
        walkLoop (chainEnv prev txs) cname net fuel cursor blocks w
          = (.ok res, w1) ∧
        res.length = blocks.length
          + chainCount prev (fetchBlocksCount - blocks.length) cursor ∧
        w1.getLog.length = w.getLog.length
          + chainCount prev (fetchBlocksCount - blocks.length) cursor ∧
        w1.fetchLog.length ≤ w.fetchLog.length
          + chainCount prev (fetchBlocksCount - blocks.length) cursor := by
  intro fuel
  induction fuel with
  | zero =>
    intro cursor blocks w hcon hle
    have h0 : fetchBlocksCount - blocks.length = 0 := Nat.le_zero.mp hle
    exact ⟨blocks, w, by simp [walkLoop], by simp [h0, chainCount],
      by simp [h0, chainCount], by simp [h0, chainCount]⟩
  | succ n ih =>
    intro cursor blocks w hcon hle
    by_cases hlen : blocks.length < fetchBlocksCount
    · cases cursor with
      | none =>
        refine ⟨blocks, w, ?_, ?_, ?_, ?_⟩ <;>
          simp [walkLoop, hlen, chainCount_none]
      | some cur =>
        obtain ⟨m, hm⟩ : ∃ m, fetchBlocksCount - blocks.length = m + 1 :=
          ⟨fetchBlocksCount - blocks.length - 1, by omega⟩
        by_cases htr : truthyS cur
        · obtain ⟨gb, wI, hiter, hprev, hglen, hflen, hconI⟩ :=
            walkIter_chain prev txs cname net cur w hcon
          have hle2 : fetchBlocksCount - (blocks ++ [gb]).length ≤ n := by
            simp only [List.length_append, List.length_cons,
              List.length_nil]
            omega
          obtain ⟨res, w1, hloop, hreslen, hgl, hfl⟩ :=
            ih gb.previous_block_hash (blocks ++ [gb]) wI hconI hle2
          have hcc : chainCount prev (fetchBlocksCount - blocks.length)
              (some cur) = chainCount prev m (prev cur) + 1 := by
            rw [hm]
            show (if truthyS cur then chainCount prev m (prev cur) + 1
              else 0) = _
            rw [if_pos htr]
          have hm2 : fetchBlocksCount - (blocks ++ [gb]).length = m := by
            simp only [List.length_append, List.length_cons, List.length_nil]
            omega
          refine ⟨res, w1, ?_, ?_, ?_, ?_⟩
          · simp only [walkLoop, if_pos hlen]
            rw [if_pos htr, hiter]
            exact hloop
          · rw [hreslen, hcc, hm2, hprev]
            simp only [List.length_append, List.length_cons, List.length_nil]
            omega
          · rw [hgl, hcc, hm2, hprev, hglen]
            omega
          · rw [hcc]
            calc w1.fetchLog.length
                ≤ wI.fetchLog.length + chainCount prev
                    (fetchBlocksCount - (blocks ++ [gb]).length)
                    gb.previous_block_hash := hfl
              _ ≤ w.fetchLog.length + chainCount prev m (prev cur) + 1 := by
                  rw [hm2, hprev]; omega
        · have hcc : chainCount prev (fetchBlocksCount - blocks.length)
              (some cur) = 0 := by
            rw [hm]
            show (if truthyS cur then chainCount prev m (prev cur) + 1
              else 0) = 0
            rw [if_neg htr]
          refine ⟨blocks, w, ?_, ?_, ?_, ?_⟩
          · simp only [walkLoop, if_pos hlen]
            rw [if_neg htr]
          · simp [hcc]
          · simp [hcc]
          · simp [hcc]
    · have h0 : fetchBlocksCount - blocks.length = 0 := by omega
      refine ⟨blocks, w, ?_, ?_, ?_, ?_⟩ <;>
        simp [walkLoop, hlen, h0, chainCount]

/-- C1: pagination bound and early termination. Along a failure-free chain
    from a starting hash: if the first ten cursors are all present (at
    least ten ancestors), the walker succeeds with exactly ten blocks; and
    if the k-th cursor (k < 10) is absent — the k-th collected block has no
    `previous_block_hash` — the walker succeeds with exactly k blocks,
    performs exactly k cache lookups (hence no (k+1)-th lookup) and at most
    k block fetches (hence no (k+1)-th fetch). -/
theorem walker_page_bound (prev : String → Option String)
    (txs : String → List String) (cname net cur : String)
    (hc : truthyS cname = true) (hn : truthyS net = true) :
    ((∀ j, j < fetchBlocksCount →
        truthyOpt (cursorAt prev (some cur) j) = true) →
      ∃ res w1,
        getPastBlocks (chainEnv prev txs)
            ⟨some cname, some cur, some net⟩ emptyWorld = (.ok res, w1) ∧
        res.blocks.length = fetchBlocksCount) ∧
    (∀ k, k < fetchBlocksCount →
      (∀ j, j < k → truthyOpt (cursorAt prev (some cur) j) = true) →
      cursorAt prev (some cur) k = none →
      ∃ res w1,
        getPastBlocks (chainEnv prev txs)
            ⟨some cname, some cur, some net⟩ emptyWorld = (.ok res, w1) ∧
        res.blocks.length = k ∧ w1.getLog.length = k ∧
        w1.fetchLog.length ≤ k) := by
  constructor
  · intro hall
    have htr : truthyS cur = true := by
      simpa [cursorAt, truthyOpt] using
        hall 0 (by norm_num [fetchBlocksCount])
    obtain ⟨res, w1, hloop, hlen, hgl, hfl⟩ :=
      walkLoop_chain prev txs cname net fetchBlocksCount (some cur) []
        emptyWorld (by intro e he _; simp [emptyWorld] at he) (by simp)
    have hcnt := chainCount_full prev fetchBlocksCount (some cur) hall
    refine ⟨⟨res⟩, w1, ?_, ?_⟩
    · rw [getPastBlocks_valid _ _ _ (by simpa [truthyOpt] using hc)
        (by simpa [truthyOpt] using htr) (by simpa [truthyOpt] using hn)]
      simp only [Option.getD_some]
      rw [hloop]
    · simpa [hcnt] using hlen
  · intro k hk hall hend
    rcases Nat.eq_zero_or_pos k with rfl | hkpos
    · simp [cursorAt] at hend
    · have htr : truthyS cur = true := by
        simpa [cursorAt, truthyOpt] using hall 0 hkpos
      obtain ⟨res, w1, hloop, hlen, hgl, hfl⟩ :=
        walkLoop_chain prev txs cname net fetchBlocksCount (some cur) []
          emptyWorld (by intro e he _; simp [emptyWorld] at he) (by simp)
      have hcnt := chainCount_cut prev k fetchBlocksCount (some cur)
        (Nat.le_of_lt hk) hall hend
      refine ⟨⟨res⟩, w1, ?_, ?_, ?_, ?_⟩
      · rw [getPastBlocks_valid _ _ _ (by simpa [truthyOpt] using hc)
          (by simpa [truthyOpt] using htr) (by simpa [truthyOpt] using hn)]
        simp only [Option.getD_some]
        rw [hloop]
      · simpa [hcnt] using hlen
      · simpa [hcnt, emptyWorld] using hgl
      · simpa [hcnt, emptyWorld] using hfl

/-- One unfolding of the loop when its test passes. -/
lemma walkLoop_step (env : Env) (cname net cur : String) (fuel : Nat)
    (blocks : List GotBlock) (w : World)
    (hlen : blocks.length < fetchBlocksCount) (htr : truthyS cur = true) :
    walkLoop env cname net (fuel + 1) (some cur) blocks w =
      match walkIter env cname net cur w with
      | (.error e, w1) => (.error e, w1)
      | (.ok gb, w1) =>
          walkLoop env cname net fuel gb.previous_block_hash
            (blocks ++ [gb]) w1 := by
  show (if blocks.length < fetchBlocksCount then
      if truthyS cur = true then
        match walkIter env cname net cur w with
        | (.error e, w1) => (.error e, w1)
        | (.ok gb, w1) =>
            walkLoop env cname net fuel gb.previous_block_hash
              (blocks ++ [gb]) w1
      else (.ok blocks, w)
    else (.ok blocks, w)) = _
  rw [if_pos hlen, if_pos htr]

/-- Witness for C1: an infinite chain yields exactly ten blocks; a chain
    whose third block has no previous hash yields exactly three blocks,
    three lookups and at most three fetches. -/
theorem walker_page_bound_witness :
    (∃ res w1,
      getPastBlocks (chainEnv prevInf txsSelf)
          ⟨some "memory", some "h", some "testnet"⟩ emptyWorld
        = (.ok res, w1) ∧ res.blocks.length = fetchBlocksCount) ∧
    (∃ res w1,
      getPastBlocks (chainEnv prev3 txsSelf)
          ⟨some "memory", some "a", some "testnet"⟩ emptyWorld
        = (.ok res, w1) ∧ res.blocks.length = 3 ∧
      w1.getLog.length = 3 ∧ w1.fetchLog.length ≤ 3) :=
  ⟨(walker_page_bound prevInf txsSelf "memory" "testnet" "h" (by decide)
      (by decide)).1 (by decide),
   (walker_page_bound prev3 txsSelf "memory" "testnet" "a" (by decide)
      (by decide)).2 3 (by decide) (by decide) (by decide)⟩

/-! ## Cache-first behaviour and cache population -/

/-- The loop when the cursor is absent. -/
lemma walkLoop_stop_none (env : Env) (cname net : String) (fuel : Nat)
    (blocks : List GotBlock) (w : World) :
    walkLoop env cname net (fuel + 1) none blocks w = (.ok blocks, w) := by
  show (if blocks.length < fetchBlocksCount then ((.ok blocks, w) :
      Except Err (List GotBlock) × World) else (.ok blocks, w)) = _
  rw [ite_self]

/-- The loop when the cursor is a falsy string. -/
lemma walkLoop_stop_falsy (env : Env) (cname net cur : String) (fuel : Nat)
    (blocks : List GotBlock) (w : World) (htr : ¬truthyS cur = true) :
    walkLoop env cname net (fuel + 1) (some cur) blocks w
      = (.ok blocks, w) := by
  show (if blocks.length < fetchBlocksCount then
      if truthyS cur = true then _ else ((.ok blocks, w) :
        Except Err (List GotBlock) × World)
    else (.ok blocks, w)) = _
  rw [if_neg htr, ite_self]

/-- The loop when the page size is already reached. -/
lemma walkLoop_stop_full (env : Env) (cname net : String)
    (cursor : Option String) (fuel : Nat) (blocks : List GotBlock)
    (w : World) (hlen : ¬blocks.length < fetchBlocksCount) :
    walkLoop env cname net (fuel + 1) cursor blocks w = (.ok blocks, w) := by
  show (if blocks.length < fetchBlocksCount then _
    else ((.ok blocks, w) : Except Err (List GotBlock) × World)) = _
  rw [if_neg hlen]

/-- Any fetch an iteration adds is for its own cursor; if that cursor has a
    cache entry, the iteration adds no fetch at all. -/
lemma walkIter_fetch_safe (env : Env) (cname net cur h : String) (w : World)
    (hmem : ∃ e ∈ w.cache, e.ctype = "block" ∧ e.key = h) :
    ∀ fc ∈ (walkIter env cname net cur w).2.fetchLog,
      fc ∈ w.fetchLog ∨ fc.id ≠ h := by
  intro fc hfc
  by_cases hch : cur = h
  · subst hch
    rw [walkIter_hit_no_fetch env cname net cur w hmem] at hfc
    exact Or.inl hfc
  · rcases walkIter_fetchLog env cname net cur w with hfl | hfl
    · rw [hfl] at hfc
      exact Or.inl hfc
    · rw [hfl] at hfc
      rcases List.mem_append.mp hfc with hf | hf
      · exact Or.inl hf
      · right
        simp only [List.mem_singleton] at hf
        rw [hf]
        exact hch

/-- Along a whole loop run, a hash with a cache entry is never fetched. -/
lemma walkLoop_no_fetch_of_cached (env : Env) (cname net h : String) :
    ∀ (fuel : Nat) (cursor : Option String) (blocks : List GotBlock)
      (w : World),
      (∃ e ∈ w.cache, e.ctype = "block" ∧ e.key = h) →
      ∀ fc ∈ (walkLoop env cname net fuel cursor blocks w).2.fetchLog,
        fc ∈ w.fetchLog ∨ fc.id ≠ h := by
  intro fuel
  induction fuel with
  | zero =>
    intro cursor blocks w _ fc hfc
    exact Or.inl hfc
  | succ n ih =>
    intro cursor blocks w hmem fc hfc
    by_cases hlen : blocks.length < fetchBlocksCount
    · cases cursor with
      | none =>
        rw [walkLoop_stop_none] at hfc
        exact Or.inl hfc
      | some cur =>
        by_cases htr : truthyS cur = true
        · rw [walkLoop_step env cname net cur n blocks w hlen htr] at hfc
          rcases hit : walkIter env cname net cur w with ⟨r, wI⟩
          rw [hit] at hfc
          cases r with
          | error e =>
            refine walkIter_fetch_safe env cname net cur h w hmem fc ?_
            rw [hit]
            exact hfc
          | ok gb =>
            have hmemI : ∃ e ∈ wI.cache, e.ctype = "block" ∧ e.key = h := by
              rcases hmem with ⟨e, he, h1, h2⟩
              refine ⟨e, ?_, h1, h2⟩
              have hmono := walkIter_cache_mono env cname net cur w e he
              rw [hit] at hmono
              exact hmono
            rcases ih gb.previous_block_hash (blocks ++ [gb]) wI hmemI fc hfc
              with hin | hne
            · refine walkIter_fetch_safe env cname net cur h w hmem fc ?_
              rw [hit]
              exact hin
            · exact Or.inr hne
        · rw [walkLoop_stop_falsy env cname net cur n blocks w htr] at hfc
          exact Or.inl hfc
    · rw [walkLoop_stop_full env cname net cursor n blocks w hlen] at hfc
      exact Or.inl hfc

/-- A walker call either leaves the world untouched (validation failure)
    or produces exactly its loop's world. -/
lemma getPastBlocks_world (env : Env) (args : WalkArgs) (w : World) :
    (getPastBlocks env args w).2 = w ∨
    (getPastBlocks env args w).2 =
      (walkLoop env (args.cache.getD "") (args.network.getD "")
        fetchBlocksCount args.current [] w).2 := by
  cases hc : truthyOpt args.cache with
  | false => left; unfold getPastBlocks; rw [hc]; rfl
  | true =>
  cases hcur : truthyOpt args.current with
  | false => left; unfold getPastBlocks; rw [hc, hcur]; rfl
  | true =>
  cases hn : truthyOpt args.network with
  | false => left; unfold getPastBlocks; rw [hc, hcur, hn]; rfl
  | true =>
    right
    rw [getPastBlocks_valid env args w hc hcur hn]
    rcases hw : walkLoop env (args.cache.getD "") (args.network.getD "")
        fetchBlocksCount args.current [] w with ⟨r, w1⟩
    cases r <;> rfl

/-- Over a whole walker call, a hash with a cache entry is never fetched. -/
lemma getPastBlocks_no_fetch_of_cached (env : Env) (args : WalkArgs)
    (w : World) (h : String)
    (hmem : ∃ e ∈ w.cache, e.ctype = "block" ∧ e.key = h) :
    ∀ fc ∈ (getPastBlocks env args w).2.fetchLog,
      fc ∈ w.fetchLog ∨ fc.id ≠ h := by
  intro fc hfc
  rcases getPastBlocks_world env args w with hw | hw
  · rw [hw] at hfc
    exact Or.inl hfc
  · rw [hw] at hfc
    exact walkLoop_no_fetch_of_cached env _ _ _ _ _ _ _ hmem fc hfc

/-- C2: cache-first resolution with TTL population. First, whenever a hash
    has a cache entry, no walk ever invokes the block source for it (every
    fetch in the final log is either pre-existing or for another id).
    Second, on a cache miss the block is fetched and written back under the
    cursor key with the fixed 3-hour TTL, the entry is then present in the
    cache, and any subsequent walk over the resulting world never invokes
    the block source for that hash again. -/
theorem walker_cache_first :
    (∀ (env : Env) (args : WalkArgs) (w : World) (h : String),
      (∃ e ∈ w.cache, e.ctype = "block" ∧ e.key = h) →
      ∀ fc ∈ (getPastBlocks env args w).2.fetchLog,
        fc ∈ w.fetchLog ∨ fc.id ≠ h) ∧
    (∀ (env : Env) (cname net h : String) (w : World) (b : Block),
      env.getErr h = none → env.setErr h = none →
      cacheLookup w "block" h = none →
      env.src net h = .ok b →
      (walkIter env cname net h w).1
          = .ok ⟨false, b.previous_block_hash, b.transaction_ids⟩ ∧
      (walkIter env cname net h w).2.setLog = w.setLog ++
        [⟨cname, h, blockExpirationMs, "block",
          ⟨b.previous_block_hash, b.transaction_ids⟩⟩] ∧
      (∃ e ∈ (walkIter env cname net h w).2.cache,
        e.ctype = "block" ∧ e.key = h ∧
        e.value = ⟨b.previous_block_hash, b.transaction_ids⟩) ∧
      (∀ (env2 : Env) (args2 : WalkArgs),
        ∀ fc ∈ (getPastBlocks env2 args2
            (walkIter env cname net h w).2).2.fetchLog,
          fc ∈ (walkIter env cname net h w).2.fetchLog ∨ fc.id ≠ h)) := by
  constructor
  · intro env args w h hmem
    exact getPastBlocks_no_fetch_of_cached env args w h hmem
  · intro env cname net h w b hget hset hlook hsrc
    have heq : walkIter env cname net h w =
        (.ok ⟨false, b.previous_block_hash, b.transaction_ids⟩,
         { w with
             cache := ⟨"block", h,
               ⟨b.previous_block_hash, b.transaction_ids⟩⟩ :: w.cache,
             getLog := w.getLog ++ [⟨cname, h, "block"⟩],
             fetchLog := w.fetchLog ++ [⟨net, h⟩],
             setLog := w.setLog ++
               [⟨cname, h, blockExpirationMs, "block",
                 ⟨b.previous_block_hash, b.transaction_ids⟩⟩] }) := by
      rw [walkIter_spec, hget, hlook, hsrc, hset]
    refine ⟨by rw [heq], by rw [heq], ?_, ?_⟩
    · refine ⟨⟨"block", h, ⟨b.previous_block_hash, b.transaction_ids⟩⟩,
        ?_, rfl, rfl, rfl⟩
      rw [heq]
      exact List.mem_cons_self _ _
    · intro env2 args2 fc hfc
      refine getPastBlocks_no_fetch_of_cached env2 args2 _ h ?_ fc hfc
      refine ⟨⟨"block", h, ⟨b.previous_block_hash, b.transaction_ids⟩⟩,
        ?_, rfl, rfl⟩
      rw [heq]
      exact List.mem_cons_self _ _

/-- Witness for C2: a pre-cached hash x is never fetched by a concrete
    walk; and a concrete cache-miss iteration on hash a returns the
    fetched block, writes it with the fixed TTL, leaves the entry cached,
    and a follow-up walk fetches only other hashes. -/
theorem walker_cache_first_witness :
    ((⟨"testnet", "a"⟩ : FetchCall) ∈ wX.fetchLog ∨
      (⟨"testnet", "a"⟩ : FetchCall).id ≠ "x") ∧
    ((walkIter envAB "memory" "testnet" "a" emptyWorld).1
        = .ok ⟨false, some "b", ["a"]⟩) ∧
    ((walkIter envAB "memory" "testnet" "a" emptyWorld).2.setLog
        = emptyWorld.setLog ++
          [⟨"memory", "a", blockExpirationMs, "block", ⟨some "b", ["a"]⟩⟩]) ∧
    (∃ e ∈ (walkIter envAB "memory" "testnet" "a" emptyWorld).2.cache,
      e.ctype = "block" ∧ e.key = "a" ∧ e.value = ⟨some "b", ["a"]⟩) ∧
    ((⟨"testnet", "b"⟩ : FetchCall) ∈
        (walkIter envAB "memory" "testnet" "a" emptyWorld).2.fetchLog ∨
      (⟨"testnet", "b"⟩ : FetchCall).id ≠ "a") := by
  have T2 := walker_cache_first.2 envAB "memory" "testnet" "a" emptyWorld
    ⟨some "b", ["a"]⟩ rfl rfl rfl rfl
  exact ⟨walker_cache_first.1 envAB ⟨some "memory", some "a", some "testnet"⟩
      wX "x" (by decide) ⟨"testnet", "a"⟩ (by decide),
    T2.1, T2.2.1, T2.2.2.1,
    T2.2.2.2 envAB argsA ⟨"testnet", "b"⟩ (by decide)⟩

/-! ## Failures are fatal to a walk -/

/-- C4: every failure during a walk is fatal to that single call. At any
    iteration still admitted by the loop test, a failing cache read, a
    failing block-source fetch, or a failing cache write each abort the
    whole loop with exactly the injected failure, so the caller receives
    the failure as-is and no partial block sequence; and a loop failure
    propagates unwrapped through the walker module. -/
theorem walker_failures_fatal (env : Env) (cname net cur : String)
    (blocks : List GotBlock) (w : World) (fuel : Nat) (e : Err)
    (hlen : blocks.length < fetchBlocksCount) (htr : truthyS cur = true) :
    (env.getErr cur = some e →
      (walkLoop env cname net (fuel + 1) (some cur) blocks w).1
        = .error e) ∧
    (env.getErr cur = none → cacheLookup w "block" cur = none →
      env.src net cur = .error e →
      (walkLoop env cname net (fuel + 1) (some cur) blocks w).1
        = .error e) ∧
    (∀ b : Block, env.getErr cur = none → cacheLookup w "block" cur = none →
      env.src net cur = .ok b → env.setErr cur = some e →
      (walkLoop env cname net (fuel + 1) (some cur) blocks w).1
        = .error e) ∧
    (∀ args : WalkArgs, truthyOpt args.cache = true →
      truthyOpt args.current = true → truthyOpt args.network = true →
      (walkLoop env (args.cache.getD "") (args.network.getD "")
        fetchBlocksCount args.current [] w).1 = .error e →
      (getPastBlocks env args w).1 = .error e) := by
  refine ⟨?_, ?_, ?_, ?_⟩
  · intro hget
    have hiter : walkIter env cname net cur w =
        (.error e, { w with getLog := w.getLog ++ [⟨cname, cur, "block"⟩] }) := by
      rw [walkIter_spec, hget]
    rw [walkLoop_step env cname net cur fuel blocks w hlen htr, hiter]
  · intro hget hlook hsrc
    have hiter : walkIter env cname net cur w =
        (.error e,
         { w with getLog := w.getLog ++ [⟨cname, cur, "block"⟩],
                  fetchLog := w.fetchLog ++ [⟨net, cur⟩] }) := by
      rw [walkIter_spec, hget, hlook, hsrc]
    rw [walkLoop_step env cname net cur fuel blocks w hlen htr, hiter]
  · intro b hget hlook hsrc hset
    have hiter : walkIter env cname net cur w =
        (.error e,
         { w with getLog := w.getLog ++ [⟨cname, cur, "block"⟩],
                  fetchLog := w.fetchLog ++ [⟨net, cur⟩],
                  setLog := w.setLog ++
                    [⟨cname, cur, blockExpirationMs, "block",
                      ⟨b.previous_block_hash, b.transaction_ids⟩⟩] }) := by
      rw [walkIter_spec, hget, hlook, hsrc, hset]
    rw [walkLoop_step env cname net cur fuel blocks w hlen htr, hiter]
  · intro args h1 h2 h3 hw
    rw [getPastBlocks_valid env args w h1 h2 h3]
    rcases hwl : walkLoop env (args.cache.getD "") (args.network.getD "")
        fetchBlocksCount args.current [] w with ⟨r, w1⟩
    rw [hwl] at hw
    cases r with
    | error er => simpa using hw
    | ok bs => simp at hw

/-- Witness for C4: a failing cache read, a failing fetch and a failing
    cache write each abort a concrete walk with the injected failure, and
    the fetch failure propagates through the walker module. -/
theorem walker_failures_fatal_witness :
    ((walkLoop envGetFail "memory" "testnet" 10 (some "a") [] emptyWorld).1
        = .error (.ext 1)) ∧
    ((walkLoop envSrcFail "memory" "testnet" 10 (some "a") [] emptyWorld).1
        = .error (.ext 2)) ∧
    ((walkLoop envSetFail "memory" "testnet" 10 (some "a") [] emptyWorld).1
        = .error (.ext 3)) ∧
    ((getPastBlocks envSrcFail argsA emptyWorld).1 = .error (.ext 2)) :=
  ⟨(walker_failures_fatal envGetFail "memory" "testnet" "a" [] emptyWorld 9
      (.ext 1) (by decide) (by decide)).1 rfl,
   (walker_failures_fatal envSrcFail "memory" "testnet" "a" [] emptyWorld 9
      (.ext 2) (by decide) (by decide)).2.1 rfl rfl rfl,
   (walker_failures_fatal envSetFail "memory" "testnet" "a" [] emptyWorld 9
      (.ext 3) (by decide) (by decide)).2.2.1 ⟨none, ["a"]⟩ rfl rfl rfl rfl,
   (walker_failures_fatal envSrcFail "memory" "testnet" "a" [] emptyWorld 9
      (.ext 2) (by decide) (by decide)).2.2.2 argsA (by decide) (by decide)
      (by decide) rfl⟩

/-! ## Cache-write hygiene -/

/-- A well-formed write stays well formed when the lookup log grows. -/
lemma goodSet_mono (env : Env) (net : String) (w w1 : World) (sc : SetCall)
    (hsub : ∀ gc ∈ w.getLog, gc ∈ w1.getLog)
    (hg : goodSet env net w sc) : goodSet env net w1 sc := by
  obtain ⟨h1, h2, ⟨gc, hgc, hk⟩, hb⟩ := hg
  exact ⟨h1, h2, ⟨gc, hsub gc hgc, hk⟩, hb⟩

/-- An iteration's write log is unchanged, or extended by the single write
    of the freshly fetched block under the cursor key. -/
lemma walkIter_setLog (env : Env) (cname net cur : String) (w : World) :
    (walkIter env cname net cur w).2.setLog = w.setLog ∨
    ∃ b, env.src net cur = .ok b ∧
      (walkIter env cname net cur w).2.setLog = w.setLog ++
        [⟨cname, cur, blockExpirationMs, "block",
          ⟨b.previous_block_hash, b.transaction_ids⟩⟩] := by
  rw [walkIter_spec]
  rcases env.getErr cur with _ | e
  · rcases cacheLookup w "block" cur with _ | entry
    · rcases hs : env.src net cur with e | b
      · left; rfl
      · rcases env.setErr cur with _ | e2
        · right; exact ⟨b, rfl, rfl⟩
        · right; exact ⟨b, rfl, rfl⟩
    · left; rfl
  · left; rfl

/-- An iteration only adds well-formed cache writes. -/
lemma walkIter_setCalls (env : Env) (cname net cur : String) (w : World)
    (base : List SetCall)
    (hw : ∀ sc ∈ w.setLog, sc ∈ base ∨ goodSet env net w sc) :
    ∀ sc ∈ (walkIter env cname net cur w).2.setLog,
      sc ∈ base ∨ goodSet env net (walkIter env cname net cur w).2 sc := by
  intro sc hsc
  have hsub : ∀ gc ∈ w.getLog,
      gc ∈ (walkIter env cname net cur w).2.getLog := by
    intro gc hgc
    rw [walkIter_getLog env cname net cur w]
    exact List.mem_append_left _ hgc
  rcases walkIter_setLog env cname net cur w with hs | ⟨b, hsrc, hs⟩
  · rw [hs] at hsc
    rcases hw sc hsc with h | h
    · exact Or.inl h
    · exact Or.inr (goodSet_mono env net w _ sc hsub h)
  · rw [hs] at hsc
    rcases List.mem_append.mp hsc with h | h
    · rcases hw sc h with h2 | h2
      · exact Or.inl h2
      · exact Or.inr (goodSet_mono env net w _ sc hsub h2)
    · simp only [List.mem_singleton] at h
      subst h
      right
      refine ⟨rfl, rfl, ⟨⟨cname, cur, "block"⟩, ?_, rfl⟩, b, hsrc, rfl⟩
      rw [walkIter_getLog env cname net cur w]
      exact List.mem_append_right _ (List.mem_singleton_self _)

/-- A whole loop run only adds well-formed cache writes. -/
lemma walkLoop_setCalls (env : Env) (cname net : String) :
    ∀ (fuel : Nat) (cursor : Option String) (blocks : List GotBlock)
      (w : World) (base : List SetCall),
      (∀ sc ∈ w.setLog, sc ∈ base ∨ goodSet env net w sc) →
      ∀ sc ∈ (walkLoop env cname net fuel cursor blocks w).2.setLog,
        sc ∈ base ∨
          goodSet env net (walkLoop env cname net fuel cursor blocks w).2
            sc := by
  intro fuel
  induction fuel with
  | zero =>
    intro cursor blocks w base hw sc hsc
    exact hw sc hsc
  | succ n ih =>
    intro cursor blocks w base hw sc hsc
    by_cases hlen : blocks.length < fetchBlocksCount
    · cases cursor with
      | none =>
        rw [walkLoop_stop_none] at hsc ⊢
        exact hw sc hsc
      | some cur =>
        by_cases htr : truthyS cur = true
        · rw [walkLoop_step env cname net cur n blocks w hlen htr] at hsc ⊢
          rcases hit : walkIter env cname net cur w with ⟨r, wI⟩
          rw [hit] at hsc
          have hstep := walkIter_setCalls env cname net cur w base hw
          rw [hit] at hstep
          cases r with
          | error e =>
            have hsc2 : sc ∈ wI.setLog := by simpa using hsc
            have hgoal := hstep sc hsc2
            simpa using hgoal
          | ok gb =>
            have hsc2 : sc ∈ (walkLoop env cname net n
                gb.previous_block_hash (blocks ++ [gb]) wI).2.setLog := by
              simpa using hsc
            have hgoal := ih gb.previous_block_hash (blocks ++ [gb]) wI base
              hstep sc hsc2
            simpa using hgoal
        · rw [walkLoop_stop_falsy env cname net cur n blocks w htr]
            at hsc ⊢
          exact hw sc hsc
    · rw [walkLoop_stop_full env cname net cursor n blocks w hlen] at hsc ⊢
      exact hw sc hsc

/-- C10: cache-write hygiene. Every cache write performed by a walk (beyond
    those already in the incoming log) is under type 'block' with the fixed
    TTL, keyed by a cursor the walk looked up, and its value is exactly the
    `previous_block_hash` and `transaction_ids` of the block the source
    returned for that key — in particular the internal `is_cached` marker
    is never persisted into the cache. -/
theorem walker_cache_write_shape (env : Env) (args : WalkArgs) (w : World) :
    ∀ sc ∈ (getPastBlocks env args w).2.setLog,
      sc ∈ w.setLog ∨
        goodSet env (args.network.getD "") (getPastBlocks env args w).2
          sc := by
  intro sc hsc
  rcases getPastBlocks_world env args w with hw | hw
  · rw [hw] at hsc
    exact Or.inl hsc
  · rw [hw] at hsc ⊢
    exact walkLoop_setCalls env (args.cache.getD "") (args.network.getD "")
      fetchBlocksCount args.current [] w w.setLog
      (fun sc2 h2 => Or.inl h2) sc hsc

/-- Witness for C10: the write performed by a concrete walk is well
    formed. -/
theorem walker_cache_write_shape_witness :
    (⟨"memory", "a", blockExpirationMs, "block", ⟨some "b", ["a"]⟩⟩ :
        SetCall) ∈ emptyWorld.setLog ∨
      goodSet envAB (argsA.network.getD "")
        (getPastBlocks envAB argsA emptyWorld).2
        ⟨"memory", "a", blockExpirationMs, "block", ⟨some "b", ["a"]⟩⟩ :=
  walker_cache_write_shape envAB argsA emptyWorld _ (by decide)

/-! ## The leaked is_cached marker (walker result shape) -/

/-- C9 (failing evaluation): a walk whose starting hash is already cached
    succeeds with the `{blocks}` wrapping, but its cache-sourced element
    carries the internal `is_cached: true` marker in addition to the two
    documented Block fields (`previous_block_hash`, `transaction_ids`),
    contradicting the documented result shape. -/
theorem walker_cached_block_carries_marker :
    (getPastBlocks envNoSrc ⟨some "memory", some "h0", some "testnet"⟩
        wCached).1 = .ok ⟨[⟨true, none, ["t1"]⟩]⟩ := rfl

/-! ## Scanner dispatch -/

/-- C7: funding dispatch. A detector result with a single funding record
    carrying index, invoice, output, script, tokens and vout yields exactly
    one funding notification carrying all nine documented fields (id,
    index, invoice, network, output, script, tokens, type, vout) and no
    error notification. -/
theorem scanner_funding_dispatch (id net inv o scr : String)
    (i tok v : Nat) (oup pre : Option String) :
    onTransaction id net (.ok ⟨[⟨"funding", some i, some inv, oup, some o,
        pre, some scr, some tok, some v⟩]⟩)
      = [.funding ⟨id, net, some i, some inv, some o, some scr, some tok,
          "funding", some v⟩] ∧
    ((onTransaction id net (.ok ⟨[⟨"funding", some i, some inv, oup, some o,
        pre, some scr, some tok, some v⟩]⟩)).filter isErrorNotif).length
      = 0 ∧
    ((onTransaction id net (.ok ⟨[⟨"funding", some i, some inv, oup, some o,
        pre, some scr, some tok, some v⟩]⟩)).filter isFundingNotif).length
      = 1 :=
  ⟨rfl, rfl, rfl⟩

/-- C6: unknown-type resilience. A detector result holding one record of
    unrecognized type and one claim record yields exactly one error
    notification — `[500, UnknownSwapType]` — and exactly one claim
    notification: the bad record does not suppress the valid one. -/
theorem scanner_unknown_type_resilience (id net : String)
    (u c : SwapRecord) (hu1 : u.type ≠ "claim") (hu2 : u.type ≠ "funding")
    (hu3 : u.type ≠ "refund") (hc : c.type = "claim") :
    onTransaction id net (.ok ⟨[u, c]⟩)
      = [.error (.pair 500 "UnknownSwapType"),
         .claim ⟨id, net, c.index, c.outpoint, c.preimage, c.script,
           "claim"⟩] ∧
    ((onTransaction id net (.ok ⟨[u, c]⟩)).filter isErrorNotif).length
      = 1 ∧
    ((onTransaction id net (.ok ⟨[u, c]⟩)).filter isClaimNotif).length
      = 1 := by
  have h : onTransaction id net (.ok ⟨[u, c]⟩)
      = [.error (.pair 500 "UnknownSwapType"),
         .claim ⟨id, net, c.index, c.outpoint, c.preimage, c.script,
           "claim"⟩] := by
    simp [onTransaction, dispatchSwap, hu1, hu2, hu3, hc]
  exact ⟨h, by rw [h]; rfl, by rw [h]; rfl⟩

/-- Witness for C6: one unrecognized record next to one claim record, at
    concrete values. -/
theorem scanner_unknown_type_resilience_witness :
    onTransaction "tx1" "testnet"
        (.ok ⟨[⟨"weird", none, none, none, none, none, none, none, none⟩,
          ⟨"claim", some 1, none, some "op", none, some "pre", some "scr",
            none, none⟩]⟩)
      = [.error (.pair 500 "UnknownSwapType"),
         .claim ⟨"tx1", "testnet", some 1, some "op", some "pre",
           some "scr", "claim"⟩] ∧
    ((onTransaction "tx1" "testnet"
        (.ok ⟨[⟨"weird", none, none, none, none, none, none, none, none⟩,
          ⟨"claim", some 1, none, some "op", none, some "pre", some "scr",
            none, none⟩]⟩)).filter isErrorNotif).length = 1 ∧
    ((onTransaction "tx1" "testnet"
        (.ok ⟨[⟨"weird", none, none, none, none, none, none, none, none⟩,
          ⟨"claim", some 1, none, some "op", none, some "pre", some "scr",
            none, none⟩]⟩)).filter isClaimNotif).length = 1 :=
  scanner_unknown_type_resilience "tx1" "testnet"
    ⟨"weird", none, none, none, none, none, none, none, none⟩
    ⟨"claim", some 1, none, some "op", none, some "pre", some "scr",
      none, none⟩
    (by decide) (by decide) (by decide) rfl

/-- C8 (failing evaluation): the scanner's claim case also copies the
    record's `index` into the emitted payload, so a claim notification
    carries an `index` field besides the five documented fields and the
    type tag. -/
theorem scanner_claim_payload_has_index :
    onTransaction "tx1" "testnet" (.ok ⟨[⟨"claim", some 7, none,
        some "op0", none, some "pre0", some "scr0", none, none⟩]⟩)
      = [.claim ⟨"tx1", "testnet", some 7, some "op0", some "pre0",
          some "scr0", "claim"⟩] := rfl

end SwapsService
